import Mathlib

/-!
Shallow embedding of the layered-codegraph scripts
(`validate_codegraph.py` and `triage_entrypoints.py`).

A text line is a `List Char` (Python lines come from `str.splitlines`, so
they carry no newline).  A file on disk is an `Option (List Line)`:
`none` models an absent file (Python `read_text` raising
`FileNotFoundError`), `some ls` a present file with lines `ls`.
Python `set[str]` / `dict[str, ...]` keys are modelled as duplicate-free
lists built by `insertSet` (insertion order preserved; only membership,
cardinality and sorted renderings are ever observed, so this is faithful).
-/

namespace Codegraph

abbrev Line := List Char

/-- Python `\s` on the characters that can occur in a `splitlines` line
(space, tab, CR, vertical tab, form feed; `\n` kept for completeness). -/
def pyIsSpace (c : Char) : Bool :=
  c == ' ' || c == '\t' || c == '\n' || c == '\r' || c == '\x0b' || c == '\x0c'

/-- Drop leading whitespace (the `\s*` of `lstrip`). -/
def dropWs (l : Line) : Line := l.dropWhile pyIsSpace

/-- Drop trailing whitespace (`rstrip`). -/
def stripRight (l : Line) : Line := (l.reverse.dropWhile pyIsSpace).reverse

/-- Python `str.strip()`. -/
def pyStrip (l : Line) : Line := stripRight (dropWs l)

/-- The tokenizer `_BULLET_RE = re.compile(r"^\s*-\s+")`, shared by both
scripts: `some rest` when the line matches, where `rest` is
`_BULLET_RE.sub("", line)` (the greedy `\s+` consumes every whitespace
character following the dash); `none` when `_BULLET_RE.match(line)` fails. -/
def bulletContent (l : Line) : Option Line :=
  match dropWs l with
  | '-' :: rest =>
    match rest with
    | c :: _ => if pyIsSpace c then some (dropWs rest) else none
    | [] => none
  | _ => none

/-- Python `small.startswith(big)`-style check: `startsWith p l` is true
iff `p` is an initial segment of `l`. -/
def startsWith (p l : Line) : Bool := List.isPrefixOf p l

/-- Insert into a Python set / dict-key list: no-op when already present,
else append (Python preserves insertion order for dicts; for sets only
membership is observed downstream). -/
def insertSet (s : List Line) (x : Line) : List Line :=
  if s.contains x then s else s ++ [x]

/-- Python `str <= str`: lexicographic comparison by code point
(`Char.toNat` is the code point). -/
def charListLe : Line → Line → Bool
  | [], _ => true
  | _ :: _, [] => false
  | a :: as, b :: bs =>
    if a.toNat < b.toNat then true
    else if b.toNat < a.toNat then false
    else charListLe as bs

/-- One level of lexicographic tuple comparison: Python compares tuple
components left to right, falling through to the rest on equality.
`entryLe` below is definitionally a chain of `lexNat`s. -/
def lexNat (n m : Nat) (rest : Bool) : Bool :=
  if n < m then true else if m < n then false else rest

/-- Insert `x` in front of the first element `y` with `le x y = true`
(so `x` lands after every earlier-inserted equal element). -/
def insertSorted (le : α → α → Bool) (x : α) : List α → List α
  | [] => [x]
  | y :: ys => if le x y then x :: y :: ys else y :: insertSorted le x ys

/-- A stable sort (insertion sort).  Python's `sorted` / `list.sort` is a
stable sort under the same comparison; every list this development sorts
has pairwise-distinct keys (deduplicated sets, distinct function
identifiers), and for distinct keys under a total antisymmetric order the
stable-sorted permutation is unique, so this is the list Python produces. -/
def pySort (le : α → α → Bool) (l : List α) : List α :=
  l.foldr (insertSorted le) []

/-- Python `sorted` on strings. -/
def sortStrings (l : List Line) : List Line := pySort charListLe l

/-- Python `token.split(sep)` for a one-character separator (all splits). -/
def splitChar (sep : Char) : Line → List Line
  | [] => [[]]
  | c :: t =>
    if c == sep then [] :: splitChar sep t
    else
      match splitChar sep t with
      | h :: r => (c :: h) :: r
      | [] => [[c]]

/-- Split at the first occurrence of a (non-empty) separator string:
`some (before, after)` when the separator occurs, `none` otherwise.
This is Python `s.split(sep, 1)` fused with the `sep in s` test that
always guards it in the scripts. -/
def splitFirst (sep : Line) : Line → Option (Line × Line)
  | [] => none
  | c :: t =>
    if startsWith sep (c :: t) then some ([], (c :: t).drop sep.length)
    else
      match splitFirst sep t with
      | some (a, b) => some (c :: a, b)
      | none => none

/-- Python `l[:n]` for an `int` bound `n`: a non-negative bound keeps the
first `n` elements, a negative bound stops `|n|` before the end
(clamped at zero). -/
def pySlice (l : List α) (n : Int) : List α :=
  if 0 ≤ n then l.take n.toNat else l.take ((l.length : Int) + n).toNat

/-- Decimal rendering of a line number / count (Python f-string `{n}`
for an `int`). -/
def natRepr (n : Nat) : Line := (Nat.repr n).toList

/-- Python `",".join(items)`. -/
def joinComma (items : List Line) : Line := List.intercalate [','] items

/-- The `"## "` markdown-header marker tested by the section parsers. -/
def headerHash : Line := "## ".toList

/-- Reading a required file, Python `path.read_text().splitlines()`:
raises on an absent file. -/
def readLines (file : Option (List Line)) : Except String (List Line) :=
  match file with
  | some ls => Except.ok ls
  | none => Except.error "FileNotFoundError"

end Codegraph

namespace ValidateCodegraph

/-! Embedding of `validate_codegraph.py`. -/

open Codegraph

/-- The `_read_lines` of the validator: converts a missing file into
`SystemExit` (here: `Except.error`), which aborts the whole run. -/
def _read_lines (file : Option (List Line)) : Except String (List Line) :=
  match file with
  | some ls => Except.ok ls
  | none => Except.error "missing file"

/-- The `section` variable of `parse_schema` ( `None` / `"nodes"` / `"edges"` ). -/
inductive SchemaSection
  | none
  | nodes
  | edges
deriving DecidableEq

/-- Loop state of `parse_schema`: the current section and the two sets
accumulated so far. -/
structure SchemaState where
  sec : SchemaSection
  node_types : List Line
  edge_types : List Line
deriving DecidableEq

def nodeTypesMarker : Line := "## Node Types".toList
def edgeTypesMarker : Line := "## Edge Types".toList

/-- One iteration of the `parse_schema` loop body. -/
def schemaStep (st : SchemaState) (line : Line) : SchemaState :=
  let stripped := pyStrip line
  if stripped = nodeTypesMarker then { st with sec := .nodes }
  else if stripped = edgeTypesMarker then { st with sec := .edges }
  else
    match bulletContent line with
    | Option.none => st
    | Option.some content =>
      let label := pyStrip content
      if label = [] then st
      else
        match st.sec with
        | .nodes => { st with node_types := insertSet st.node_types label }
        | .edges => { st with edge_types := insertSet st.edge_types label }
        | .none => st

/-- The `parse_schema` on a present file's lines: the loop, started from
section `None` with both sets empty. -/
def parse_schema_lines (ls : List Line) : List Line × List Line :=
  let st := ls.foldl schemaStep ⟨.none, [], []⟩
  (st.node_types, st.edge_types)

/-- The `parse_schema`: reads via `_read_lines` (so a missing schema file
aborts with `SystemExit`) and runs the section loop. -/
def parse_schema (file : Option (List Line)) : Except String (List Line × List Line) :=
  (_read_lines file).map parse_schema_lines

def urlHttp : Line := "http://".toList
def urlHttps : Line := "https://".toList

/-- The `token.startswith(("http://", "https://"))`. -/
def isUrl (token : Line) : Bool :=
  startsWith urlHttp token || startsWith urlHttps token

/-- The `node_type, _ = token.split(":", 1)`: the part before the first colon
(the scripts only use it on tokens already known to contain a colon). -/
def nodeTypeOf (token : Line) : Line := token.takeWhile (fun c => c != ':')

/-- The token a nodes-file line contributes, if any: the bullet content,
stripped, provided it is non-empty, not URL-shaped, and contains a colon
(`parse_nodes` of the validator, per-line part). -/
def nodeTokenV (line : Line) : Option Line :=
  match bulletContent line with
  | Option.none => Option.none
  | Option.some content =>
    let token := pyStrip content
    if token = [] then Option.none
    else if isUrl token then Option.none
    else if token.contains ':' then Option.some token
    else Option.none

/-- The `parse_nodes` of the validator, on a present file's lines.  The Python
dict maps each kept token to its derived type; the type is recomputed by
`nodeTypeOf` where needed, so the dict is represented by its key list. -/
def parse_nodes_lines (ls : List Line) : List Line :=
  ls.foldl (fun acc line =>
    match nodeTokenV line with
    | Option.none => acc
    | Option.some token => insertSet acc token) []

def parse_nodes (file : Option (List Line)) : Except String (List Line) :=
  (_read_lines file).map parse_nodes_lines

/-- An accepted edge line (`Edge` dataclass of the validator). -/
structure Edge where
  edge_type : Line
  src : Line
  dst : Line
  raw : Line
  line_no : Nat
deriving DecidableEq

def arrowSep : Line := ['-', '>']

/-- The edge a line contributes, if any (`parse_edges` loop body): split
on `|` into stripped fields, need at least two, field 1 must contain `->`
and split into non-empty stripped `src`/`dst`; anything else is skipped. -/
def edgeOfLine (line_no : Nat) (line : Line) : Option Edge :=
  match bulletContent line with
  | Option.none => Option.none
  | Option.some content =>
    let token := pyStrip content
    if token = [] then Option.none
    else
      match (splitChar '|' token).map pyStrip with
      | edge_type :: link :: _ =>
        match splitFirst arrowSep link with
        | Option.none => Option.none
        | Option.some (a, b) =>
          let src := pyStrip a
          let dst := pyStrip b
          if src = [] || dst = [] then Option.none
          else Option.some ⟨edge_type, src, dst, line, line_no⟩
      | _ => Option.none

/-- The `parse_edges` of the validator, on a present file's lines
(`enumerate(..., start=1)` supplies 1-based line numbers). -/
def parse_edges_lines (ls : List Line) : List Edge :=
  (List.enumFrom 1 ls).filterMap (fun p => edgeOfLine p.1 p.2)

def parse_edges (file : Option (List Line)) : Except String (List Edge) :=
  (_read_lines file).map parse_edges_lines

def nodeErrMsg (node : Line) : Line :=
  "node type not in schema: ".toList ++ nodeTypeOf node
    ++ " (".toList ++ node ++ ")".toList

def edgeTypeErrMsg (path : Line) (e : Edge) : Line :=
  path ++ ":".toList ++ natRepr e.line_no
    ++ ": edge type not in schema: ".toList ++ e.edge_type

def srcErrMsg (path : Line) (e : Edge) : Line :=
  path ++ ":".toList ++ natRepr e.line_no
    ++ ": missing src node: ".toList ++ e.src

def dstErrMsg (path : Line) (e : Edge) : Line :=
  path ++ ":".toList ++ natRepr e.line_no
    ++ ": missing dst node: ".toList ++ e.dst

/-- The `errors` list of `validate`, built exactly as the two loops do:
first the node loop over `sorted(nodes.items())` (pairs sorted by token,
which is the primary and deciding component since tokens are the dict
keys), then the edge loop with its three independent checks per edge.
`path` stands for the `edges_path` interpolated into edge messages. -/
def validateErrors (path : Line) (node_types edge_types : List Line)
    (nodes : List Line) (edges : List Edge) : List Line :=
  let errs1 := (sortStrings nodes).foldl (fun acc node =>
    if node_types.contains (nodeTypeOf node) then acc
    else acc ++ [nodeErrMsg node]) []
  edges.foldl (fun acc e =>
    let acc := if edge_types.contains e.edge_type then acc
               else acc ++ [edgeTypeErrMsg path e]
    let acc := if nodes.contains e.src then acc
               else acc ++ [srcErrMsg path e]
    if nodes.contains e.dst then acc
    else acc ++ [dstErrMsg path e]) errs1

/-- Outcome of `validate` on parsed data: exit code, stdout lines, stderr
lines (the `print` / `print(..., file=sys.stderr)` calls). -/
def validateReport (path : Line) (node_types edge_types : List Line)
    (nodes : List Line) (edges : List Edge) : Nat × List Line × List Line :=
  let errors := validateErrors path node_types edge_types nodes edges
  if errors ≠ [] then
    (1, [], "codegraph validation: FAIL".toList :: errors.map (fun e => "- ".toList ++ e))
  else
    (0, ["codegraph validation: OK".toList,
         "- nodes: ".toList ++ natRepr nodes.length,
         "- edges: ".toList ++ natRepr edges.length], [])

/-- The `validate` from the three (possibly absent) files: any missing file
aborts via `_read_lines` before any checking happens. -/
def validate (path : Line) (schemaFile nodesFile edgesFile : Option (List Line)) :
    Except String (Nat × List Line × List Line) := do
  let schema ← parse_schema schemaFile
  let nodes ← parse_nodes nodesFile
  let edges ← parse_edges edgesFile
  pure (validateReport path schema.1 schema.2 nodes edges)

end ValidateCodegraph

namespace TriageEntrypoints

/-! Embedding of `triage_entrypoints.py`. -/

open Codegraph

/-- The `_read_lines` of the triage script: a bare `read_text`, so a missing
file propagates as an uncaught exception. -/
def _read_lines (file : Option (List Line)) : Except String (List Line) :=
  match file with
  | some ls => Except.ok ls
  | none => Except.error "FileNotFoundError"

/-- The `_csv_set`: split on commas, strip, drop empties, collect as a set. -/
def _csv_set (value : Line) : List Line :=
  ((splitChar ',' value).map pyStrip).foldl
    (fun acc v => if v = [] then acc else insertSet acc v) []

/-- The `_node_type`: text before the first colon, `""` when there is none. -/
def _node_type (node : Line) : Line :=
  if node.contains ':' then node.takeWhile (fun c => c != ':') else []

/-- The `is_typed`: `node.startswith(type_name + ":")`. -/
def is_typed (node : Line) (type_name : Line) : Bool :=
  startsWith (type_name ++ [':']) node

/-- ASCII lowering of a header (Python `.lower()`; the accepted header
spellings are all ASCII, so `Char.toLower` agrees where it matters). -/
def lowerLine (l : Line) : Line := l.map Char.toLower

def labelMapHeaders : List Line :=
  ["label map".toList, "label mapping".toList,
   "label-map".toList, "label-mapping".toList]

def labelSeps : List Line := [['-', '>'], ['='], [':']]

/-- Assoc-list update modelling `mapping[src] = dst` (replace in place or
append; Python dicts keep first-insertion order for keys). -/
def mapPut (m : List (Line × Line)) (k v : Line) : List (Line × Line) :=
  match m with
  | [] => [(k, v)]
  | (k', v') :: rest =>
    if k' = k then (k, v) :: rest else (k', v') :: mapPut rest k v

/-- The `mapping.get(label, label)`. -/
def mapGet (m : List (Line × Line)) (k : Line) : Line :=
  match m with
  | [] => k
  | (k', v') :: rest => if k' = k then v' else mapGet rest k

/-- The `for sep in ("->", "=", ":")` body of `parse_label_map`: the first
separator present in the token decides the split (`break` fires whether or
not the sides were kept). -/
def labelMapEntry (token : Line) : Option (Line × Line) :=
  match labelSeps.find? (fun sep => (splitFirst sep token).isSome) with
  | Option.none => Option.none
  | Option.some sep =>
    match splitFirst sep token with
    | Option.none => Option.none
    | Option.some (a, b) =>
      let src := pyStrip a
      let dst := pyStrip b
      if src ≠ [] ∧ dst ≠ [] then Option.some (src, dst) else Option.none

/-- One line of the `parse_label_map` loop: state is `(in_section, mapping)`. -/
def labelMapStep (st : Bool × List (Line × Line)) (line : Line) :
    Bool × List (Line × Line) :=
  let stripped := pyStrip line
  if startsWith headerHash stripped then
    (labelMapHeaders.contains (lowerLine (pyStrip (stripped.drop 3))), st.2)
  else if !st.1 then st
  else
    match bulletContent line with
    | Option.none => st
    | Option.some content =>
      let token := pyStrip content
      if token = [] then st
      else
        match labelMapEntry token with
        | Option.none => st
        | Option.some (src, dst) => (st.1, mapPut st.2 src dst)

/-- The `parse_label_map`: an absent schema file yields the empty mapping. -/
def parse_label_map (file : Option (List Line)) : List (Line × Line) :=
  match file with
  | none => []
  | some ls => (ls.foldl labelMapStep (false, [])).2

/-- The triage script's `Edge` dataclass (no `raw` field here). -/
structure Edge where
  edge_type : Line
  src : Line
  dst : Line
  line_no : Nat
deriving DecidableEq

/-- The token a nodes-file line contributes to the triage node set
(`parse_nodes` of the triage script: non-empty and contains a colon —
note: no URL check here, unlike the validator). -/
def nodeTokenT (line : Line) : Option Line :=
  match bulletContent line with
  | Option.none => Option.none
  | Option.some content =>
    let token := pyStrip content
    if token = [] then Option.none
    else if token.contains ':' then Option.some token
    else Option.none

/-- The `parse_nodes` of the triage script, on a present file's lines. -/
def parse_nodes_lines (ls : List Line) : List Line :=
  ls.foldl (fun acc line =>
    match nodeTokenT line with
    | Option.none => acc
    | Option.some token => insertSet acc token) []

def arrowSep : Line := ['-', '>']

/-- The `parse_edges` loop body — identical to the validator's except that no
`raw` field is stored. -/
def edgeOfLine (line_no : Nat) (line : Line) : Option Edge :=
  match bulletContent line with
  | Option.none => Option.none
  | Option.some content =>
    let token := pyStrip content
    if token = [] then Option.none
    else
      match (splitChar '|' token).map pyStrip with
      | edge_type :: link :: _ =>
        match splitFirst arrowSep link with
        | Option.none => Option.none
        | Option.some (a, b) =>
          let src := pyStrip a
          let dst := pyStrip b
          if src = [] || dst = [] then Option.none
          else Option.some ⟨edge_type, src, dst, line_no⟩
      | _ => Option.none

def parse_edges_lines (ls : List Line) : List Edge :=
  (List.enumFrom 1 ls).filterMap (fun p => edgeOfLine p.1 p.2)

/-- The keyword configuration of `triage` (everything after `*`). -/
structure Cfg where
  func_type : Line
  asset_type : Line
  value_edge_types : List Line
  call_edge_types : List Line
  reads_edge_type : Line
  writes_edge_type : Line
  role_edge_type : Line

/-- The per-function statistics dict initialised for every `FUNC` node. -/
structure Stats where
  value_edges : Nat
  call_edges : Nat
  reads : Nat
  writes : Nat
  roles : List Line
  assets : List Line
deriving DecidableEq

def initStats : Stats := ⟨0, 0, 0, 0, [], []⟩

/-- The `for edge in edges` classification body, for one edge already
known to originate at the function whose `stats` this is: the
`if/elif` chain in source order. -/
def edgeStep (cfg : Cfg) (st : Stats) (e : Edge) : Stats :=
  if cfg.value_edge_types.contains e.edge_type then
    { st with
      value_edges := st.value_edges + 1,
      assets := if is_typed e.dst cfg.asset_type then insertSet st.assets e.dst
                else st.assets }
  else if cfg.call_edge_types.contains e.edge_type then
    { st with call_edges := st.call_edges + 1 }
  else if e.edge_type = cfg.reads_edge_type then
    { st with reads := st.reads + 1 }
  else if e.edge_type = cfg.writes_edge_type then
    { st with writes := st.writes + 1 }
  else if e.edge_type = cfg.role_edge_type then
    { st with roles := insertSet st.roles e.dst }
  else st

/-- Final value of `by_func[func]`: the edge loop touches exactly the
edges whose `src` equals `func` (and `func` ranges over the qualifying
function nodes, each initialised to zero counts). -/
def statsFor (cfg : Cfg) (edges : List Edge) (func : Line) : Stats :=
  edges.foldl (fun st e => if e.src = func then edgeStep cfg st e else st) initStats

/-- A `ranked` tuple:
`(value_edges, len(assets), call_edges, writes, reads, func)`. -/
abbrev Entry := Nat × Nat × Nat × Nat × Nat × Line

/-- The qualifying function list: `sorted([n for n in nodes if is_typed n func_type])`. -/
def funcsOf (cfg : Cfg) (nodes : List Line) : List Line :=
  sortStrings (nodes.filter (fun n => is_typed n cfg.func_type))

def entryOf (cfg : Cfg) (edges : List Edge) (func : Line) : Entry :=
  let st := statsFor cfg edges func
  (st.value_edges, st.assets.length, st.call_edges, st.writes, st.reads, func)

/-- The `ranked` list before sorting: one tuple per function kept by the
permissionless filter, in `by_func` (= sorted-function) order. -/
def rankedOf (cfg : Cfg) (permissionless_only : Bool)
    (edges : List Edge) (funcs : List Line) : List Entry :=
  funcs.filterMap (fun func =>
    if permissionless_only && !((statsFor cfg edges func).roles = []) then Option.none
    else Option.some (entryOf cfg edges func))

/-- Python tuple `<=` on ranked entries: lexicographic, strings compared
by code point. -/
def entryLe (x y : Entry) : Bool :=
  match x, y with
  | (v1, a1, c1, w1, r1, f1), (v2, a2, c2, w2, r2, f2) =>
    if v1 < v2 then true else if v2 < v1 then false
    else if a1 < a2 then true else if a2 < a1 then false
    else if c1 < c2 then true else if c2 < c1 then false
    else if w1 < w2 then true else if w2 < w1 then false
    else if r1 < r2 then true else if r2 < r1 then false
    else charListLe f1 f2

/-- The `ranked.sort(reverse=True)`: a stable descending sort, i.e. a stable
sort under the flipped comparison. -/
def sortRanked (l : List Entry) : List Entry :=
  pySort (fun x y => entryLe y x) l

/-- The report line rendered for one ranked tuple (the f-string in the
output loop; `by_func[func]` is `statsFor` again). -/
def renderEntry (cfg : Cfg) (edges : List Edge) (x : Entry) : Line :=
  match x with
  | (value_edges, _asset_count, call_edges, writes, reads, func) =>
    let st := statsFor cfg edges func
    let roles := sortStrings st.roles
    let assets := sortStrings st.assets
    let role_str := if roles = [] then "none".toList else joinComma roles
    let asset_str := if assets = [] then "none".toList else joinComma assets
    "- ".toList ++ func
      ++ " | value_edges=".toList ++ natRepr value_edges
      ++ " assets=".toList ++ asset_str
      ++ " calls=".toList ++ natRepr call_edges
      ++ " writes=".toList ++ natRepr writes
      ++ " reads=".toList ++ natRepr reads
      ++ " roles=".toList ++ role_str

/-- The `triage` on present file contents: parse, aggregate, filter, sort
descending, truncate by Python slice, render. -/
def triage_lines (cfg : Cfg) (permissionless_only : Bool) (limit : Int)
    (nodeLines edgeLines : List Line) : List Line :=
  let nodes := parse_nodes_lines nodeLines
  let edges := parse_edges_lines edgeLines
  let funcs := funcsOf cfg nodes
  let ranked := sortRanked (rankedOf cfg permissionless_only edges funcs)
  (pySlice ranked limit).map (renderEntry cfg edges)

/-- The `ranked` list as it stands when `ranked.sort(reverse=True)` runs:
parsing, function selection and the permissionless filter applied. -/
def rankedPre (cfg : Cfg) (perm : Bool) (nodeLines edgeLines : List Line) :
    List Entry :=
  rankedOf cfg perm (parse_edges_lines edgeLines)
    (funcsOf cfg (parse_nodes_lines nodeLines))

/-- The `ranked` list after `ranked.sort(reverse=True)`. -/
def rankedSorted (cfg : Cfg) (perm : Bool) (nodeLines edgeLines : List Line) :
    List Entry :=
  sortRanked (rankedPre cfg perm nodeLines edgeLines)

/-- The rendered report without the `[:limit]` truncation. -/
def triageFullLines (cfg : Cfg) (perm : Bool) (nodeLines edgeLines : List Line) :
    List Line :=
  (rankedSorted cfg perm nodeLines edgeLines).map
    (renderEntry cfg (parse_edges_lines edgeLines))

/-- The five numeric components of a ranked tuple. -/
def entryNums (x : Entry) : Nat × Nat × Nat × Nat × Nat :=
  (x.1, x.2.1, x.2.2.1, x.2.2.2.1, x.2.2.2.2.1)

/-- The function-identifier component of a ranked tuple. -/
def entryFunc (x : Entry) : Line := x.2.2.2.2.2

def headerLine : Line := "# Triage (higher first)".toList

def sentinelLine : Line :=
  ("- (no FUNC nodes found in SSOT; triage requires FUNC nodes + value edges"
    ++ " like TRANSFERS/MINTS/BURNS/COLLECTS_FEE)").toList

/-- What `main` prints for a given `lines` result of `triage`: the header,
the sentinel exactly when `lines` is empty, then the lines. -/
def outputFor (lines : List Line) : List Line :=
  headerLine :: (if lines.length = 0 then [sentinelLine] else []) ++ lines

/-- The raw CLI label arguments of `main` (already parsed by argparse). -/
structure Args where
  limit : Int
  permissionless_only : Bool
  no_label_map : Bool
  func_type : Line
  asset_type : Line
  value_edges : Line
  call_edges : Line
  reads_edge : Line
  writes_edge : Line
  role_edge : Line

/-- The `main`: resolve the label map, translate every label, run `triage`,
print the header, the sentinel when no lines resulted, then the lines.
Result: stdout lines and the process exit status (`0` on the normal path,
`Except.error` when an uncaught exception escapes, which exits non-zero
with no output printed). -/
def main (args : Args) (schemaFile nodesFile edgesFile : Option (List Line)) :
    Except String (List Line × Nat) := do
  let label_map := if args.no_label_map then [] else parse_label_map schemaFile
  let m := fun label => mapGet label_map label
  let cfg : Cfg :=
    { func_type := m args.func_type
      asset_type := m args.asset_type
      value_edge_types := (_csv_set args.value_edges).foldl
        (fun acc t => insertSet acc (m t)) []
      call_edge_types := (_csv_set args.call_edges).foldl
        (fun acc t => insertSet acc (m t)) []
      reads_edge_type := m args.reads_edge
      writes_edge_type := m args.writes_edge
      role_edge_type := m args.role_edge }
  let nodeLines ← _read_lines nodesFile
  let edgeLines ← _read_lines edgesFile
  let lines := triage_lines cfg args.permissionless_only args.limit nodeLines edgeLines
  pure (outputFor lines, 0)

end TriageEntrypoints

namespace Fixtures

/-! Concrete inputs used by witnesses and counterexamples: the CLI
defaults of the triage entry point and a two-function graph. -/

open Codegraph TriageEntrypoints

/-- The argparse defaults of `triage_entrypoints.py`. -/
def defaultArgs : Args :=
  { limit := 50
    permissionless_only := false
    no_label_map := false
    func_type := "FUNC".toList
    asset_type := "ASSET".toList
    value_edges := "TRANSFERS,MINTS,BURNS,COLLECTS_FEE".toList
    call_edges := "EXT_CALLS,DELEGATECALLS,STATICCALLS".toList
    reads_edge := "READS".toList
    writes_edge := "WRITES".toList
    role_edge := "REQUIRES_ROLE".toList }

/-- The `triage` configuration those defaults produce when no label map
is present. -/
def defaultCfg : Cfg :=
  { func_type := "FUNC".toList
    asset_type := "ASSET".toList
    value_edge_types :=
      ["TRANSFERS".toList, "MINTS".toList, "BURNS".toList, "COLLECTS_FEE".toList]
    call_edge_types :=
      ["EXT_CALLS".toList, "DELEGATECALLS".toList, "STATICCALLS".toList]
    reads_edge_type := "READS".toList
    writes_edge_type := "WRITES".toList
    role_edge_type := "REQUIRES_ROLE".toList }

/-- A nodes file with two function nodes. -/
def nodesAB : List Line := ["- FUNC:a".toList, "- FUNC:b".toList]

/-- An edges file where `FUNC:a` has one value edge and one role edge
(so it is privileged) and `FUNC:b` has nothing. -/
def edgesAB : List Line :=
  ["- TRANSFERS | FUNC:a -> ASSET:x".toList,
   "- REQUIRES_ROLE | FUNC:a -> ROLE:admin".toList]

/-- The report line triage renders for `FUNC:a` on `nodesAB`/`edgesAB`. -/
def lineA : Line :=
  "- FUNC:a | value_edges=1 assets=ASSET:x calls=0 writes=0 reads=0 roles=ROLE:admin".toList

/-- The report line triage renders for `FUNC:b` on `nodesAB`/`edgesAB`. -/
def lineB : Line :=
  "- FUNC:b | value_edges=0 assets=none calls=0 writes=0 reads=0 roles=none".toList

end Fixtures

/-! ## Proof infrastructure -/

namespace Codegraph

theorem mem_insertSet {s : List Line} {x y : Line} :
    y ∈ insertSet s x ↔ y ∈ s ∨ y = x := by
  unfold insertSet
  by_cases h : s.contains x = true
  · rw [if_pos h]
    have hx : x ∈ s := (@List.elem_iff Line _ _ x s).mp h
    constructor
    · exact Or.inl
    · rintro (hy | rfl)
      · exact hy
      · exact hx
  · rw [if_neg h]
    simp [List.mem_append]

theorem foldl_step_append {α β : Type} (f : List β → α → List β) (g : α → List β)
    (hf : ∀ acc x, f acc x = acc ++ g x) :
    ∀ (l : List α) (init : List β), l.foldl f init = init ++ l.flatMap g
  | [], init => by simp
  | x :: l, init => by
    rw [List.foldl_cons, hf, foldl_step_append f g hf l, List.flatMap_cons,
      List.append_assoc]

theorem flatMap_guard_eq_filterMap {α β : Type} (p : α → Prop) [DecidablePred p]
    (m : α → β) :
    ∀ l : List α,
      (l.flatMap fun x => if p x then [] else [m x])
        = l.filterMap fun x => if p x then Option.none else Option.some (m x)
  | [] => by simp
  | x :: l => by
    by_cases h : p x <;>
      simp [h, flatMap_guard_eq_filterMap p m l]

theorem startsWith_iff {p l : Line} : startsWith p l = true ↔ ∃ t, l = p ++ t := by
  induction p generalizing l with
  | nil =>
    simp [startsWith, List.isPrefixOf]
  | cons a as ih =>
    cases l with
    | nil =>
      simp [startsWith, List.isPrefixOf]
    | cons b bs =>
      have hstep : startsWith (a :: as) (b :: bs) = (a == b && startsWith as bs) := rfl
      rw [hstep]
      simp only [Bool.and_eq_true, beq_iff_eq, ih]
      constructor
      · rintro ⟨rfl, t, rfl⟩
        exact ⟨t, rfl⟩
      · rintro ⟨t, ht⟩
        rw [List.cons_append] at ht
        injection ht with h1 h2
        exact ⟨h1.symm, t, h2⟩

theorem stripRight_pre (l : Line) : ∃ t, l = stripRight l ++ t := by
  obtain ⟨s, hs⟩ := @List.dropWhile_suffix Char l.reverse pyIsSpace
  refine ⟨s.reverse, ?_⟩
  calc l = l.reverse.reverse := (List.reverse_reverse l).symm
    _ = (s ++ l.reverse.dropWhile pyIsSpace).reverse := by rw [hs]
    _ = (l.reverse.dropWhile pyIsSpace).reverse ++ s.reverse := by
        rw [List.reverse_append]

theorem pyStrip_eq (l : Line) : pyStrip l = stripRight (dropWs l) := rfl

theorem charListLe_total : ∀ a b : Line, charListLe a b = true ∨ charListLe b a = true
  | [], _ => Or.inl rfl
  | _ :: _, [] => Or.inr rfl
  | a :: as, b :: bs => by
    rcases Nat.lt_trichotomy a.toNat b.toNat with h | h | h
    · left
      simp [charListLe, h]
    · rcases charListLe_total as bs with ih | ih
      · left
        simp [charListLe, h, Nat.lt_irrefl, ih]
      · right
        simp [charListLe, h, Nat.lt_irrefl, ih]
    · right
      simp [charListLe, h]

theorem charListLe_trans : ∀ a b c : Line,
    charListLe a b = true → charListLe b c = true → charListLe a c = true
  | [], _, _, _, _ => rfl
  | _ :: _, [], _, h1, _ => by simp [charListLe] at h1
  | _ :: _, _ :: _, [], _, h2 => by simp [charListLe] at h2
  | a :: as, b :: bs, c :: cs, h1, h2 => by
    simp only [charListLe] at h1 h2 ⊢
    split_ifs at h1 h2 ⊢ <;>
      first
        | rfl
        | omega
        | simp at h1
        | simp at h2
        | exact charListLe_trans as bs cs h1 h2

theorem charListLe_antisymm : ∀ a b : Line,
    charListLe a b = true → charListLe b a = true → a = b
  | [], [], _, _ => rfl
  | [], _ :: _, _, h2 => by simp [charListLe] at h2
  | _ :: _, [], h1, _ => by simp [charListLe] at h1
  | a :: as, b :: bs, h1, h2 => by
    simp only [charListLe] at h1 h2
    split_ifs at h1 h2 <;>
      first
        | omega
        | exact Bool.noConfusion h1
        | exact Bool.noConfusion h2
        | (have hn : a.toNat = b.toNat := by omega
           have hab : a = b := by
             apply Char.ext
             apply UInt32.ext
             exact hn
           rw [hab, charListLe_antisymm as bs h1 h2])

theorem lexNat_iff {n m : Nat} {rest : Bool} :
    lexNat n m rest = true ↔ n < m ∨ (n = m ∧ rest = true) := by
  unfold lexNat
  by_cases h1 : n < m
  · simp [h1]
  · by_cases h2 : m < n
    · rw [if_neg h1, if_pos h2]
      simp only [Bool.false_eq_true, false_iff]
      rintro (h | ⟨rfl, _⟩) <;> omega
    · have hnm : n = m := by omega
      rw [if_neg h1, if_neg h2]
      simp [hnm]

theorem lexNat_self (n : Nat) (rest : Bool) : lexNat n n rest = rest := by
  simp [lexNat]

theorem lexNat_trans {a b c : Nat} {r₁ r₂ r₃ : Bool}
    (h₁ : lexNat a b r₁ = true) (h₂ : lexNat b c r₂ = true)
    (hr : r₁ = true → r₂ = true → r₃ = true) : lexNat a c r₃ = true := by
  rw [lexNat_iff] at h₁ h₂ ⊢
  rcases h₁ with h | ⟨rfl, h₁⟩
  · rcases h₂ with h' | ⟨rfl, _⟩
    · exact Or.inl (Nat.lt_trans h h')
    · exact Or.inl h
  · rcases h₂ with h' | ⟨rfl, h₂⟩
    · exact Or.inl h'
    · exact Or.inr ⟨rfl, hr h₁ h₂⟩

theorem lexNat_total {a b : Nat} {r₁ r₂ : Bool} (h : r₁ = true ∨ r₂ = true) :
    lexNat a b r₁ = true ∨ lexNat b a r₂ = true := by
  rw [lexNat_iff, lexNat_iff]
  rcases Nat.lt_trichotomy a b with h' | rfl | h'
  · exact Or.inl (Or.inl h')
  · rcases h with h | h
    · exact Or.inl (Or.inr ⟨rfl, h⟩)
    · exact Or.inr (Or.inr ⟨rfl, h⟩)
  · exact Or.inr (Or.inl h')

theorem lexNat_antisymm {a b : Nat} {r₁ r₂ : Bool}
    (h₁ : lexNat a b r₁ = true) (h₂ : lexNat b a r₂ = true) :
    a = b ∧ r₁ = true ∧ r₂ = true := by
  rw [lexNat_iff] at h₁ h₂
  rcases h₁ with h | ⟨rfl, h₁⟩ <;> rcases h₂ with h' | ⟨h'', h₂⟩ <;>
    first
      | omega
      | exact ⟨rfl, h₁, h₂⟩

theorem insertSorted_perm (le : α → α → Bool) (x : α) :
    ∀ l : List α, (insertSorted le x l).Perm (x :: l)
  | [] => List.Perm.refl _
  | y :: ys => by
    unfold insertSorted
    by_cases h : le x y = true
    · rw [if_pos h]
    · rw [if_neg h]
      exact ((insertSorted_perm le x ys).cons y).trans (List.Perm.swap x y ys)

theorem pySort_perm (le : α → α → Bool) : ∀ l : List α, (pySort le l).Perm l
  | [] => List.Perm.refl _
  | x :: l =>
    (insertSorted_perm le x (pySort le l)).trans ((pySort_perm le l).cons x)

theorem mem_pySort {le : α → α → Bool} {l : List α} {a : α} :
    a ∈ pySort le l ↔ a ∈ l :=
  (pySort_perm le l).mem_iff

theorem pairwise_insertSorted (le : α → α → Bool)
    (htot : ∀ a b, le a b = true ∨ le b a = true)
    (htrans : ∀ a b c, le a b = true → le b c = true → le a c = true)
    (x : α) :
    ∀ l : List α, l.Pairwise (fun a b => le a b = true) →
      (insertSorted le x l).Pairwise (fun a b => le a b = true)
  | [], _ => by simp [insertSorted]
  | y :: ys, h => by
    unfold insertSorted
    by_cases hxy : le x y = true
    · rw [if_pos hxy, List.pairwise_cons]
      refine ⟨?_, h⟩
      intro z hz
      rcases List.mem_cons.mp hz with rfl | hz'
      · exact hxy
      · exact htrans x y z hxy (List.rel_of_pairwise_cons h hz')
    · rw [if_neg hxy]
      rw [List.pairwise_cons] at h ⊢
      have hyx : le y x = true := (htot x y).resolve_left hxy
      refine ⟨?_, pairwise_insertSorted le htot htrans x ys h.2⟩
      intro z hz
      rcases List.mem_cons.mp ((insertSorted_perm le x ys).mem_iff.mp hz) with rfl | hz'
      · exact hyx
      · exact h.1 z hz'

theorem pairwise_pySort (le : α → α → Bool)
    (htot : ∀ a b, le a b = true ∨ le b a = true)
    (htrans : ∀ a b c, le a b = true → le b c = true → le a c = true) :
    ∀ l : List α, (pySort le l).Pairwise (fun a b => le a b = true)
  | [] => List.Pairwise.nil
  | x :: l =>
    pairwise_insertSorted le htot htrans x (pySort le l)
      (pairwise_pySort le htot htrans l)

/-- A line whose stripped form begins with `"## "` cannot be a bullet line:
the tokenizer sees a `#`, not a `-`, after the leading whitespace. -/
theorem bulletContent_eq_none_of_header {l : Line}
    (h : startsWith headerHash (pyStrip l) = true) :
    bulletContent l = Option.none := by
  obtain ⟨t, ht⟩ := startsWith_iff.mp h
  obtain ⟨u, hu⟩ := stripRight_pre (dropWs l)
  have hd : dropWs l = '#' :: (('#' :: ' ' :: t) ++ u) := by
    have hstr : stripRight (dropWs l) = '#' :: '#' :: ' ' :: t := by
      calc stripRight (dropWs l) = pyStrip l := rfl
        _ = headerHash ++ t := ht
        _ = '#' :: '#' :: ' ' :: t := rfl
    rw [hu, hstr]
    rfl
  simp [bulletContent, hd]

end Codegraph

namespace ValidateCodegraph

/-- The `schemaStep` ignores every line that is not one of the two markers and
not a bullet; in particular it does NOT reset the section on other
`## `-headers. -/
theorem schemaStep_eq_self {st : SchemaState} {line : Codegraph.Line}
    (h1 : Codegraph.pyStrip line ≠ nodeTypesMarker)
    (h2 : Codegraph.pyStrip line ≠ edgeTypesMarker)
    (hb : Codegraph.bulletContent line = Option.none) :
    schemaStep st line = st := by
  unfold schemaStep
  rw [if_neg h1, if_neg h2, hb]

/-- The section component only ever changes on one of the two markers. -/
theorem schemaStep_sec_eq {st : SchemaState} {line : Codegraph.Line}
    (h1 : Codegraph.pyStrip line ≠ nodeTypesMarker)
    (h2 : Codegraph.pyStrip line ≠ edgeTypesMarker) :
    (schemaStep st line).sec = st.sec := by
  unfold schemaStep
  rw [if_neg h1, if_neg h2]
  cases hb : Codegraph.bulletContent line with
  | none => rfl
  | some content =>
    by_cases hl : Codegraph.pyStrip content = []
    · simp [hl]
    · simp only [hl, if_neg]
      cases hsec : st.sec <;> simp [hsec]

/-- With the section state at `None`, a non-marker line leaves the whole
`parse_schema` state unchanged. -/
theorem schemaStep_none_of_not_marker {nts ets : List Codegraph.Line}
    {line : Codegraph.Line}
    (h1 : Codegraph.pyStrip line ≠ nodeTypesMarker)
    (h2 : Codegraph.pyStrip line ≠ edgeTypesMarker) :
    schemaStep ⟨SchemaSection.none, nts, ets⟩ line
      = ⟨SchemaSection.none, nts, ets⟩ := by
  unfold schemaStep
  rw [if_neg h1, if_neg h2]
  cases hb : Codegraph.bulletContent line with
  | none => rfl
  | some content =>
    by_cases hl : Codegraph.pyStrip content = [] <;> simp [hl]

/-- Over a file with no marker line, the `parse_schema` loop never leaves
the initial state. -/
theorem foldl_schemaStep_none :
    ∀ ls : List Codegraph.Line,
      (∀ l ∈ ls, Codegraph.pyStrip l ≠ nodeTypesMarker
        ∧ Codegraph.pyStrip l ≠ edgeTypesMarker) →
      ls.foldl schemaStep ⟨SchemaSection.none, [], []⟩
        = ⟨SchemaSection.none, [], []⟩
  | [], _ => rfl
  | l :: ls, h => by
    rw [List.foldl_cons,
      schemaStep_none_of_not_marker (h l (List.mem_cons_self l ls)).1
        (h l (List.mem_cons_self l ls)).2]
    exact foldl_schemaStep_none ls fun l' hl' => h l' (List.mem_cons_of_mem l hl')

/-- The `nodeTokenV` is `nodeTokenT` with URL-shaped tokens additionally
dropped (the only difference between the two `parse_nodes` copies). -/
theorem nodeTokenV_eq (line : Codegraph.Line) :
    nodeTokenV line
      = match TriageEntrypoints.nodeTokenT line with
        | Option.some tok => if isUrl tok = true then Option.none else Option.some tok
        | Option.none => Option.none := by
  unfold nodeTokenV TriageEntrypoints.nodeTokenT
  cases hb : Codegraph.bulletContent line with
  | none => rfl
  | some content =>
    by_cases h0 : Codegraph.pyStrip content = []
    · simp [h0]
    · by_cases h1 : isUrl (Codegraph.pyStrip content) = true
      · by_cases h2 : ':' ∈ Codegraph.pyStrip content <;>
          simp [h0, h1, h2]
      · by_cases h2 : ':' ∈ Codegraph.pyStrip content <;>
          simp [h0, h1, h2]

theorem nodeTokenV_of_none {line : Codegraph.Line}
    (h : TriageEntrypoints.nodeTokenT line = Option.none) :
    nodeTokenV line = Option.none := by
  rw [nodeTokenV_eq line, h]

theorem nodeTokenV_of_some {line tok : Codegraph.Line}
    (h : TriageEntrypoints.nodeTokenT line = Option.some tok) :
    nodeTokenV line = if isUrl tok = true then Option.none else Option.some tok := by
  rw [nodeTokenV_eq line, h]

/-- Loop invariant connecting the two `parse_nodes` folds: the validator
accumulator is the triage accumulator minus URL-shaped tokens. -/
theorem parse_nodes_mem_aux :
    ∀ (ls : List Codegraph.Line) (accV accT : List Codegraph.Line),
      (∀ u, u ∈ accV ↔ (u ∈ accT ∧ isUrl u = false)) →
      ∀ t,
        t ∈ ls.foldl (fun acc line =>
            match nodeTokenV line with
            | Option.none => acc
            | Option.some token => Codegraph.insertSet acc token) accV
        ↔ (t ∈ ls.foldl (fun acc line =>
            match TriageEntrypoints.nodeTokenT line with
            | Option.none => acc
            | Option.some token => Codegraph.insertSet acc token) accT
          ∧ isUrl t = false)
  | [], _, _, hinv, t => hinv t
  | line :: ls, accV, accT, hinv, t => by
    rw [List.foldl_cons, List.foldl_cons]
    refine parse_nodes_mem_aux ls _ _ ?_ t
    intro u
    cases htok : TriageEntrypoints.nodeTokenT line with
    | none =>
      have hV := nodeTokenV_of_none htok
      simp only [hV, htok]
      exact hinv u
    | some tok =>
      have hV := nodeTokenV_of_some htok
      by_cases hu : isUrl tok = true
      · rw [if_pos hu] at hV
        simp only [hV, htok]
        rw [hinv u, Codegraph.mem_insertSet]
        constructor
        · rintro ⟨hm, hurl⟩
          exact ⟨Or.inl hm, hurl⟩
        · rintro ⟨hm | rfl, hurl⟩
          · exact ⟨hm, hurl⟩
          · rw [hu] at hurl
            exact Bool.noConfusion hurl
      · rw [if_neg hu] at hV
        simp only [hV, htok]
        constructor
        · intro hm
          rcases Codegraph.mem_insertSet.mp hm with hm' | rfl
          · obtain ⟨hT, hurl⟩ := (hinv u).mp hm'
            exact ⟨Codegraph.mem_insertSet.mpr (Or.inl hT), hurl⟩
          · refine ⟨Codegraph.mem_insertSet.mpr (Or.inr rfl), ?_⟩
            simpa using hu
        · rintro ⟨hm, hurl⟩
          rcases Codegraph.mem_insertSet.mp hm with hm' | rfl
          · exact Codegraph.mem_insertSet.mpr (Or.inl ((hinv u).mpr ⟨hm', hurl⟩))
          · exact Codegraph.mem_insertSet.mpr (Or.inr rfl)

end ValidateCodegraph

namespace TriageEntrypoints

theorem entryLe_eq (v1 a1 c1 w1 r1 : Nat) (f1 : Codegraph.Line)
    (v2 a2 c2 w2 r2 : Nat) (f2 : Codegraph.Line) :
    entryLe (v1, a1, c1, w1, r1, f1) (v2, a2, c2, w2, r2, f2)
      = Codegraph.lexNat v1 v2 (Codegraph.lexNat a1 a2 (Codegraph.lexNat c1 c2
          (Codegraph.lexNat w1 w2 (Codegraph.lexNat r1 r2
            (Codegraph.charListLe f1 f2))))) := rfl

theorem entryLe_total (x y : Entry) : entryLe x y = true ∨ entryLe y x = true := by
  obtain ⟨v1, a1, c1, w1, r1, f1⟩ := x
  obtain ⟨v2, a2, c2, w2, r2, f2⟩ := y
  rw [entryLe_eq, entryLe_eq]
  exact Codegraph.lexNat_total (Codegraph.lexNat_total (Codegraph.lexNat_total
    (Codegraph.lexNat_total (Codegraph.lexNat_total
      (Codegraph.charListLe_total f1 f2)))))

theorem entryLe_trans (x y z : Entry)
    (h1 : entryLe x y = true) (h2 : entryLe y z = true) : entryLe x z = true := by
  obtain ⟨v1, a1, c1, w1, r1, f1⟩ := x
  obtain ⟨v2, a2, c2, w2, r2, f2⟩ := y
  obtain ⟨v3, a3, c3, w3, r3, f3⟩ := z
  rw [entryLe_eq] at h1 h2 ⊢
  exact Codegraph.lexNat_trans h1 h2 (fun p q => Codegraph.lexNat_trans p q
    (fun p q => Codegraph.lexNat_trans p q (fun p q => Codegraph.lexNat_trans p q
      (fun p q => Codegraph.lexNat_trans p q
        (fun p q => Codegraph.charListLe_trans f1 f2 f3 p q)))))

theorem entryLe_antisymm (x y : Entry)
    (h1 : entryLe x y = true) (h2 : entryLe y x = true) : x = y := by
  obtain ⟨v1, a1, c1, w1, r1, f1⟩ := x
  obtain ⟨v2, a2, c2, w2, r2, f2⟩ := y
  rw [entryLe_eq] at h1 h2
  obtain ⟨hv, h1, h2⟩ := Codegraph.lexNat_antisymm h1 h2
  obtain ⟨ha, h1, h2⟩ := Codegraph.lexNat_antisymm h1 h2
  obtain ⟨hc, h1, h2⟩ := Codegraph.lexNat_antisymm h1 h2
  obtain ⟨hw, h1, h2⟩ := Codegraph.lexNat_antisymm h1 h2
  obtain ⟨hr, h1, h2⟩ := Codegraph.lexNat_antisymm h1 h2
  have hf := Codegraph.charListLe_antisymm f1 f2 h1 h2
  rw [hv, ha, hc, hw, hr, hf]

/-- With equal numeric components, the descending tuple comparison is
exactly the string comparison on the identifier. -/
theorem entryLe_nums_eq {x y : Entry} (h : entryLe y x = true)
    (hn : entryNums x = entryNums y) :
    Codegraph.charListLe (entryFunc y) (entryFunc x) = true := by
  obtain ⟨v1, a1, c1, w1, r1, f1⟩ := x
  obtain ⟨v2, a2, c2, w2, r2, f2⟩ := y
  simp only [entryNums, Prod.mk.injEq] at hn
  obtain ⟨hv, ha, hc, hw, hr⟩ := hn
  rw [entryLe_eq, ← hv, ← ha, ← hc, ← hw, ← hr] at h
  rw [Codegraph.lexNat_self, Codegraph.lexNat_self, Codegraph.lexNat_self,
    Codegraph.lexNat_self, Codegraph.lexNat_self] at h
  exact h

/-- Every rendered triage entry contains a pipe character. -/
theorem pipe_mem_renderEntry (cfg : Cfg) (edges : List Edge) (x : Entry) :
    '|' ∈ renderEntry cfg edges x := by
  obtain ⟨v, a, c, w, r, f⟩ := x
  have hp : '|' ∈ " | value_edges=".toList := by decide
  simp only [renderEntry, List.append_assoc, List.mem_append]
  tauto

/-- The sentinel line contains no pipe character. -/
theorem pipe_not_mem_sentinel : '|' ∉ sentinelLine := by decide

end TriageEntrypoints

/-! ## Claims -/

open Codegraph

/-- Claim **C1** (amended): in `parse_schema` of the validator, the section state
starts as none and changes only on a line whose trimmed form equals one of
the two recognized markers; contrary to the original claim, any other line
starting with `## ` does NOT reset the state — it is skipped entirely
(such a line is not a bullet), so a bullet under a third header such as
`## Label Map` is attributed to whichever recognized section was last
active (or to neither only when no marker preceded it). -/
theorem C1_schema_section_no_reset
    (st : ValidateCodegraph.SchemaState) (line : Line) :
    (startsWith headerHash (pyStrip line) = true →
      pyStrip line ≠ ValidateCodegraph.nodeTypesMarker →
      pyStrip line ≠ ValidateCodegraph.edgeTypesMarker →
      ValidateCodegraph.schemaStep st line = st)
    ∧ ((ValidateCodegraph.schemaStep st line).sec ≠ st.sec →
        pyStrip line = ValidateCodegraph.nodeTypesMarker
        ∨ pyStrip line = ValidateCodegraph.edgeTypesMarker) := by
  constructor
  · intro hh h1 h2
    exact ValidateCodegraph.schemaStep_eq_self h1 h2
      (bulletContent_eq_none_of_header hh)
  · intro hne
    by_cases h1 : pyStrip line = ValidateCodegraph.nodeTypesMarker
    · exact Or.inl h1
    · by_cases h2 : pyStrip line = ValidateCodegraph.edgeTypesMarker
      · exact Or.inr h2
      · exact absurd (ValidateCodegraph.schemaStep_sec_eq h1 h2) hne

/-- Claim **C1 counterexample**: a bullet under `## Label Map` IS added to the
node-types set when the `## Node Types` section was last active, because
`parse_schema` does not reset the section on unrecognized headers —
refuting "added to neither the node-types set nor the edge-types set". -/
theorem C1_cex_label_map_bullet_in_node_types :
    ValidateCodegraph.parse_schema_lines
        ["## Node Types".toList, "## Label Map".toList, "- EXTRA".toList]
      = (["EXTRA".toList], [])
    ∧ "EXTRA".toList
        ∈ (ValidateCodegraph.parse_schema_lines
            ["## Node Types".toList, "## Label Map".toList, "- EXTRA".toList]).1 := by
  constructor
  · decide
  · decide

/-- Claim **C1 witness**: the state-transition theorem applied to the concrete
header `## Label Map` while inside the node-types section. -/
theorem C1_witness :
    ValidateCodegraph.schemaStep
        ⟨ValidateCodegraph.SchemaSection.nodes, [], []⟩ "## Label Map".toList
      = ⟨ValidateCodegraph.SchemaSection.nodes, [], []⟩ :=
  (C1_schema_section_no_reset ⟨ValidateCodegraph.SchemaSection.nodes, [], []⟩
    "## Label Map".toList).1 (by decide) (by decide) (by decide)

/-- Claim **C3** (amended): the two `parse_nodes` copies agree except on
URL-shaped bullets: a token is in the validator's node set iff it is in
the triage node set and does not begin with `http://` or `https://`.
(Both discard candidates without a colon; only the validator discards
URLs, contrary to the original claim.) -/
theorem C3_node_parsers_agree_modulo_urls (ls : List Line) (t : Line) :
    t ∈ ValidateCodegraph.parse_nodes_lines ls
      ↔ (t ∈ TriageEntrypoints.parse_nodes_lines ls
          ∧ ValidateCodegraph.isUrl t = false) :=
  ValidateCodegraph.parse_nodes_mem_aux ls [] [] (by simp) t

/-- Claim **C3 counterexample**: on the nodes file `- http://a:b` the validator
parses the empty node set but the triage engine keeps `http://a:b` (it has
a colon and the triage copy has no URL filter), so the two node sets
differ and the triage parser does not discard URL-shaped candidates. -/
theorem C3_cex_url_bullet_diverges :
    ValidateCodegraph.parse_nodes_lines ["- http://a:b".toList] = []
    ∧ TriageEntrypoints.parse_nodes_lines ["- http://a:b".toList]
        = ["http://a:b".toList]
    ∧ "http://a:b".toList ∈ TriageEntrypoints.parse_nodes_lines ["- http://a:b".toList]
    ∧ "http://a:b".toList ∉ ValidateCodegraph.parse_nodes_lines ["- http://a:b".toList] := by
  refine ⟨by decide, by decide, by decide, by decide⟩

/-- Claim **C3 witness**: the agreement theorem applied at a concrete ordinary
token, discharging the right-hand side by evaluation. -/
theorem C3_witness :
    "FUNC:a".toList ∈ ValidateCodegraph.parse_nodes_lines ["- FUNC:a".toList] :=
  (C3_node_parsers_agree_modulo_urls ["- FUNC:a".toList] "FUNC:a".toList).mpr
    ⟨by decide, by decide⟩

/-- Claim **C4** (amended): when the schema file exists but contains neither
recognized section marker, `parse_schema` returns empty node-type and
edge-type sets rather than failing; but when the schema FILE is missing,
`_read_lines` raises `SystemExit` and validation aborts instead of
degrading (see the counterexample). -/
theorem C4_missing_sections_empty_sets (ls : List Line)
    (h : ∀ l ∈ ls, pyStrip l ≠ ValidateCodegraph.nodeTypesMarker
        ∧ pyStrip l ≠ ValidateCodegraph.edgeTypesMarker) :
    ValidateCodegraph.parse_schema (some ls) = Except.ok ([], []) := by
  show Except.ok (ValidateCodegraph.parse_schema_lines ls) = Except.ok ([], [])
  have hst := ValidateCodegraph.foldl_schemaStep_none ls h
  simp [ValidateCodegraph.parse_schema_lines, hst]

/-- Claim **C4 counterexample**: a missing schema file makes `parse_schema`
raise `SystemExit` (modelled as `Except.error`), and `validate` aborts
with the same error rather than proceeding with empty sets. -/
theorem C4_cex_missing_file_aborts :
    ValidateCodegraph.parse_schema Option.none = Except.error "missing file"
    ∧ ValidateCodegraph.validate "codegraph/02_edges.md".toList
        Option.none (some []) (some []) = Except.error "missing file" :=
  ⟨rfl, rfl⟩

/-- Claim **C4 witness**: a concrete schema file with a bullet and an alien
header but no recognized marker parses to two empty sets. -/
theorem C4_witness :
    ValidateCodegraph.parse_schema
        (some ["- A".toList, "## Other Header".toList]) = Except.ok ([], []) :=
  C4_missing_sections_empty_sets ["- A".toList, "## Other Header".toList]
    (by decide)

/-- Claim **C7**: the validator's error list is exactly one "node type not in
schema" error per offending node, iterating the node set sorted by full
identifier, followed by up to three independent errors per edge in file
order — no check short-circuits any other; and a graph with zero nodes
and zero edges validates successfully (exit 0, counts 0/0) against any
schema. -/
theorem C7_validator_error_report (path : Line) (nts ets nodes : List Line)
    (edges : List ValidateCodegraph.Edge) :
    ValidateCodegraph.validateErrors path nts ets nodes edges
      = (sortStrings nodes).filterMap (fun node =>
          if nts.contains (ValidateCodegraph.nodeTypeOf node)
          then Option.none
          else Option.some (ValidateCodegraph.nodeErrMsg node))
        ++ edges.flatMap (fun e =>
          (if ets.contains e.edge_type then []
           else [ValidateCodegraph.edgeTypeErrMsg path e])
          ++ (if nodes.contains e.src then []
              else [ValidateCodegraph.srcErrMsg path e])
          ++ (if nodes.contains e.dst then []
              else [ValidateCodegraph.dstErrMsg path e]))
    ∧ ValidateCodegraph.validateReport path nts ets [] []
        = (0, ["codegraph validation: OK".toList,
               "- nodes: 0".toList, "- edges: 0".toList], []) := by
  constructor
  · unfold ValidateCodegraph.validateErrors
    have h1 : (sortStrings nodes).foldl
        (fun acc node =>
          if nts.contains (ValidateCodegraph.nodeTypeOf node) then acc
          else acc ++ [ValidateCodegraph.nodeErrMsg node]) []
        = (sortStrings nodes).filterMap (fun node =>
            if nts.contains (ValidateCodegraph.nodeTypeOf node)
            then Option.none
            else Option.some (ValidateCodegraph.nodeErrMsg node)) := by
      rw [foldl_step_append _
        (fun node =>
          if nts.contains (ValidateCodegraph.nodeTypeOf node) then []
          else [ValidateCodegraph.nodeErrMsg node])
        (by intro acc node; split_ifs <;> simp_all)]
      rw [List.nil_append,
        flatMap_guard_eq_filterMap
          (fun node => nts.contains (ValidateCodegraph.nodeTypeOf node) = true)]
    have h2 : ∀ init, edges.foldl
        (fun acc e =>
          let acc := if ets.contains e.edge_type then acc
                     else acc ++ [ValidateCodegraph.edgeTypeErrMsg path e]
          let acc := if nodes.contains e.src then acc
                     else acc ++ [ValidateCodegraph.srcErrMsg path e]
          if nodes.contains e.dst then acc
          else acc ++ [ValidateCodegraph.dstErrMsg path e]) init
        = init ++ edges.flatMap (fun e =>
            (if ets.contains e.edge_type then []
             else [ValidateCodegraph.edgeTypeErrMsg path e])
            ++ (if nodes.contains e.src then []
                else [ValidateCodegraph.srcErrMsg path e])
            ++ (if nodes.contains e.dst then []
                else [ValidateCodegraph.dstErrMsg path e])) := by
      intro init
      refine foldl_step_append _ _ ?_ edges init
      intro acc e
      dsimp only
      split_ifs <;> simp_all
    rw [h1] at *
    rw [h2]
  · rfl

/-- Claim **C7 witness**: the empty graph validates with `OK` and zero counts. -/
theorem C7_witness :
    ValidateCodegraph.validateReport "codegraph/02_edges.md".toList [] [] [] []
      = (0, ["codegraph validation: OK".toList,
             "- nodes: 0".toList, "- edges: 0".toList], []) :=
  (C7_validator_error_report "codegraph/02_edges.md".toList [] [] [] []).2

open TriageEntrypoints Fixtures

/-- An entry kept by the permissionless filter is also produced by the
unfiltered run (before sorting and truncation the filter only removes). -/
theorem rankedOf_subset_unfiltered {cfg : Cfg} {edges : List TriageEntrypoints.Edge}
    {funcs : List Line} {en : Entry} (h : en ∈ rankedOf cfg true edges funcs) :
    en ∈ rankedOf cfg false edges funcs := by
  unfold rankedOf at h ⊢
  obtain ⟨func, hf, hg⟩ := List.mem_filterMap.mp h
  apply List.mem_filterMap.mpr
  refine ⟨func, hf, ?_⟩
  by_cases hr : (statsFor cfg edges func).roles = []
  · simp [hr] at hg
    simp [hg]
  · simp [hr] at hg

/-- Claim **C2** (amended): before truncation, every report line emitted with
permissionless-only enabled is also emitted by the otherwise identical
unfiltered run — the filter only removes entries.  (With the result cap
applied the original claim fails: filtering can promote lower-ranked
functions into the capped window, see the counterexample.) -/
theorem C2_permissionless_subset_before_truncation (cfg : Cfg)
    (nodeLines edgeLines : List Line) (x : Line)
    (h : x ∈ triageFullLines cfg true nodeLines edgeLines) :
    x ∈ triageFullLines cfg false nodeLines edgeLines := by
  unfold triageFullLines at h ⊢
  obtain ⟨en, hen, hx⟩ := List.mem_map.mp h
  apply List.mem_map.mpr
  refine ⟨en, ?_, hx⟩
  unfold rankedSorted sortRanked rankedPre at hen ⊢
  rw [mem_pySort] at hen ⊢
  exact rankedOf_subset_unfiltered hen

/-- Claim **C2 counterexample**: with the default labels, limit 1, two functions
`FUNC:a` (privileged, one value edge) and `FUNC:b` (idle), the unfiltered
run reports only `FUNC:a` while the permissionless-only run reports only
`FUNC:b` — an entry the unfiltered run never emitted, refuting the subset
claim for a fixed result limit. -/
theorem C2_cex_truncation_breaks_subset :
    triage_lines defaultCfg true 1 nodesAB edgesAB = [lineB]
    ∧ triage_lines defaultCfg false 1 nodesAB edgesAB = [lineA]
    ∧ lineB ∉ triage_lines defaultCfg false 1 nodesAB edgesAB :=
  ⟨by decide, by decide, by decide⟩

/-- Claim **C2 witness**: on the fixture graph, `FUNC:b`'s line is in the
filtered untruncated report, and the theorem places it in the unfiltered
one. -/
theorem C2_witness :
    lineB ∈ triageFullLines defaultCfg true nodesAB edgesAB
    ∧ lineB ∈ triageFullLines defaultCfg false nodesAB edgesAB :=
  ⟨by decide,
   C2_permissionless_subset_before_truncation defaultCfg nodesAB edgesAB lineB
     (by decide)⟩

/-- Claim **C5**: the ranking comparison is a total order (total and
antisymmetric), `ranked.sort(reverse=True)` produces a permutation of the
pre-sort list that is pairwise descending under that order, two entries
with identical five numeric statistics are ordered with the
lexicographically greater identifier first, and the output is the sorted
list truncated by the caller-supplied limit and rendered. -/
theorem C5_ranking_total_order_and_truncation (cfg : Cfg) (perm : Bool)
    (limit : Int) (nodeLines edgeLines : List Line) :
    (∀ x y : Entry, entryLe x y = true ∨ entryLe y x = true)
    ∧ (∀ x y : Entry, entryLe x y = true → entryLe y x = true → x = y)
    ∧ (rankedSorted cfg perm nodeLines edgeLines).Perm
        (rankedPre cfg perm nodeLines edgeLines)
    ∧ (rankedSorted cfg perm nodeLines edgeLines).Pairwise
        (fun x y => entryLe y x = true)
    ∧ (rankedSorted cfg perm nodeLines edgeLines).Pairwise
        (fun x y => entryNums x = entryNums y →
          charListLe (entryFunc y) (entryFunc x) = true)
    ∧ triage_lines cfg perm limit nodeLines edgeLines
        = (pySlice (rankedSorted cfg perm nodeLines edgeLines) limit).map
            (renderEntry cfg (parse_edges_lines edgeLines)) := by
  have hpw := pairwise_pySort (fun x y : Entry => entryLe y x)
    (fun a b => entryLe_total b a)
    (fun a b c h1 h2 => entryLe_trans c b a h2 h1)
    (rankedPre cfg perm nodeLines edgeLines)
  exact ⟨entryLe_total, entryLe_antisymm, pySort_perm _ _, hpw,
    hpw.imp (fun h hn => entryLe_nums_eq h hn), rfl⟩

/-- Claim **C5 witness**: antisymmetry applied at a concrete entry, hypotheses
evaluated by `decide`. -/
theorem C5_witness :
    ((1, 1, 0, 0, 0, "FUNC:a".toList) : Entry) = (1, 1, 0, 0, 0, "FUNC:a".toList) :=
  (C5_ranking_total_order_and_truncation defaultCfg false 50 nodesAB edgesAB).2.1
    (1, 1, 0, 0, 0, "FUNC:a".toList) (1, 1, 0, 0, 0, "FUNC:a".toList)
    (by decide) (by decide)

/-- Claim **C6**: the edge-classification chain assigns each edge to at most one
statistics bucket in the fixed priority order value → call → reads →
writes → role: a type that is both in the value-touch set and equal to the
writes label increments only `value_edges` (writes, reads, calls and roles
are untouched), each later bucket fires only when all earlier tests fail,
and an edge matching none of the five classifications changes nothing. -/
theorem C6_edge_classified_once (cfg : Cfg) (st : Stats) (e : TriageEntrypoints.Edge) :
    (cfg.value_edge_types.contains e.edge_type = true →
      (edgeStep cfg st e).value_edges = st.value_edges + 1
      ∧ (edgeStep cfg st e).call_edges = st.call_edges
      ∧ (edgeStep cfg st e).reads = st.reads
      ∧ (edgeStep cfg st e).writes = st.writes
      ∧ (edgeStep cfg st e).roles = st.roles)
    ∧ (cfg.value_edge_types.contains e.edge_type = false →
       cfg.call_edge_types.contains e.edge_type = true →
        edgeStep cfg st e = { st with call_edges := st.call_edges + 1 })
    ∧ (cfg.value_edge_types.contains e.edge_type = false →
       cfg.call_edge_types.contains e.edge_type = false →
       e.edge_type = cfg.reads_edge_type →
        edgeStep cfg st e = { st with reads := st.reads + 1 })
    ∧ (cfg.value_edge_types.contains e.edge_type = false →
       cfg.call_edge_types.contains e.edge_type = false →
       e.edge_type ≠ cfg.reads_edge_type →
       e.edge_type = cfg.writes_edge_type →
        edgeStep cfg st e = { st with writes := st.writes + 1 })
    ∧ (cfg.value_edge_types.contains e.edge_type = false →
       cfg.call_edge_types.contains e.edge_type = false →
       e.edge_type ≠ cfg.reads_edge_type →
       e.edge_type ≠ cfg.writes_edge_type →
       e.edge_type = cfg.role_edge_type →
        edgeStep cfg st e = { st with roles := insertSet st.roles e.dst })
    ∧ (cfg.value_edge_types.contains e.edge_type = false →
       cfg.call_edge_types.contains e.edge_type = false →
       e.edge_type ≠ cfg.reads_edge_type →
       e.edge_type ≠ cfg.writes_edge_type →
       e.edge_type ≠ cfg.role_edge_type →
        edgeStep cfg st e = st) := by
  refine ⟨?_, ?_, ?_, ?_, ?_, ?_⟩ <;> intros <;> simp_all [edgeStep]

/-- Claim **C6 witness**: a `TRANSFERS` edge (value-touch by default) increments
only the value bucket. -/
theorem C6_witness :
    defaultCfg.value_edge_types.contains "TRANSFERS".toList = true
    ∧ ((edgeStep defaultCfg initStats
          ⟨"TRANSFERS".toList, "FUNC:a".toList, "ASSET:x".toList, 1⟩).value_edges
        = initStats.value_edges + 1
      ∧ (edgeStep defaultCfg initStats
          ⟨"TRANSFERS".toList, "FUNC:a".toList, "ASSET:x".toList, 1⟩).call_edges
        = initStats.call_edges
      ∧ (edgeStep defaultCfg initStats
          ⟨"TRANSFERS".toList, "FUNC:a".toList, "ASSET:x".toList, 1⟩).reads
        = initStats.reads
      ∧ (edgeStep defaultCfg initStats
          ⟨"TRANSFERS".toList, "FUNC:a".toList, "ASSET:x".toList, 1⟩).writes
        = initStats.writes
      ∧ (edgeStep defaultCfg initStats
          ⟨"TRANSFERS".toList, "FUNC:a".toList, "ASSET:x".toList, 1⟩).roles
        = initStats.roles) :=
  ⟨by decide,
   (C6_edge_classified_once defaultCfg initStats
     ⟨"TRANSFERS".toList, "FUNC:a".toList, "ASSET:x".toList, 1⟩).1 (by decide)⟩

/-- Claim **C8** (amended): whenever the nodes and edges files are readable, the
triage entry point always succeeds with exit status 0 and its first output
line is the header, for every argument combination, every schema file
state, and every content of the two files — malformed data only shrinks
the report.  (A missing nodes or edges file, however, crashes the process
with an uncaught `FileNotFoundError`, see the counterexample.) -/
theorem C8_triage_exits_zero_on_readable_files (args : Args)
    (schemaFile : Option (List Line)) (nodeLines edgeLines : List Line) :
    ∃ out, TriageEntrypoints.main args schemaFile (some nodeLines) (some edgeLines)
        = Except.ok (out, 0)
      ∧ out.head? = some headerLine :=
  ⟨_, rfl, rfl⟩

/-- Claim **C8 counterexample**: an input directory with no readable nodes file
makes the triage entry point propagate `FileNotFoundError` instead of
exiting 0 — `_read_lines` of the triage script has no handler. -/
theorem C8_cex_missing_files_crash :
    TriageEntrypoints.main defaultArgs Option.none Option.none Option.none
      = Except.error "FileNotFoundError" := rfl

/-- Claim **C8 witness**: the success theorem at the fixture inputs. -/
theorem C8_witness :
    ∃ out, TriageEntrypoints.main defaultArgs Option.none (some nodesAB) (some edgesAB)
        = Except.ok (out, 0)
      ∧ out.head? = some headerLine :=
  C8_triage_exits_zero_on_readable_files defaultArgs Option.none nodesAB edgesAB

/-- Claim **C9** (amended): the sentinel line is emitted exactly when the
rendered entry list is empty.  Zero qualifying function nodes do imply an
empty list (and hence the sentinel), but the sentinel also fires when
entries were removed by the result cap or the permissionless-only filter,
so its absence — not its presence — is what distinguishes the cases. -/
theorem C9_sentinel_iff_no_lines (cfg : Cfg) (perm : Bool) (limit : Int)
    (nodeLines edgeLines : List Line) :
    (sentinelLine ∈ outputFor (triage_lines cfg perm limit nodeLines edgeLines)
      ↔ triage_lines cfg perm limit nodeLines edgeLines = [])
    ∧ (funcsOf cfg (parse_nodes_lines nodeLines) = [] →
        triage_lines cfg perm limit nodeLines edgeLines = []) := by
  constructor
  · constructor
    · intro hmem
      by_contra hne
      have hlen : ¬(triage_lines cfg perm limit nodeLines edgeLines).length = 0 := by
        simpa [List.length_eq_zero] using hne
      unfold outputFor at hmem
      rw [if_neg hlen] at hmem
      simp only [List.cons_append, List.nil_append] at hmem
      rcases List.mem_cons.mp hmem with heq | hin
      · exact absurd heq (by decide)
      · obtain ⟨en, _, hren⟩ := List.mem_map.mp hin
        exact pipe_not_mem_sentinel (hren ▸ pipe_mem_renderEntry cfg
          (parse_edges_lines edgeLines) en)
    · intro h
      rw [h]
      decide
  · intro h
    show (pySlice (sortRanked (rankedOf cfg perm (parse_edges_lines edgeLines)
        (funcsOf cfg (parse_nodes_lines nodeLines)))) limit).map
        (renderEntry cfg (parse_edges_lines edgeLines)) = []
    rw [h]
    simp [rankedOf, sortRanked, pySort, pySlice]

/-- Claim **C9 counterexample**: with a result cap of 0 on a graph that HAS two
qualifying `FUNC` nodes, the sentinel line is still printed — the cap does
trigger the sentinel, refuting "emitted exactly when there are zero
qualifying function nodes". -/
theorem C9_cex_sentinel_fires_under_cap :
    TriageEntrypoints.main { defaultArgs with limit := 0 } Option.none
        (some nodesAB) (some edgesAB)
      = Except.ok ([headerLine, sentinelLine], 0)
    ∧ funcsOf defaultCfg (parse_nodes_lines nodesAB)
        = ["FUNC:a".toList, "FUNC:b".toList] :=
  ⟨by rfl, by decide⟩

/-- Claim **C9 witness**: with no nodes at all there are no qualifying
functions, and the theorem yields the empty report (hence the sentinel). -/
theorem C9_witness :
    triage_lines defaultCfg false 50 [] [] = [] :=
  (C9_sentinel_iff_no_lines defaultCfg false 50 [] []).2 (by decide)

/-- Claim **C10**: for a negative result limit `n`, `ranked[:limit]` follows
Python slice semantics: the output is the full ranked report minus its
`|n|` lowest-ranked (final) lines — not zero entries, not all entries,
and not an error. -/
theorem C10_negative_limit_drops_tail (cfg : Cfg) (perm : Bool)
    (nodeLines edgeLines : List Line) (limit : Int) (h : limit < 0) :
    triage_lines cfg perm limit nodeLines edgeLines
      = (triageFullLines cfg perm nodeLines edgeLines).take
          ((triageFullLines cfg perm nodeLines edgeLines).length - limit.natAbs) := by
  show (pySlice (rankedSorted cfg perm nodeLines edgeLines) limit).map
      (renderEntry cfg (parse_edges_lines edgeLines)) = _
  unfold pySlice
  rw [if_neg (by omega : ¬(0 : Int) ≤ limit)]
  rw [List.map_take]
  unfold triageFullLines
  congr 1
  rw [List.length_map]
  omega

/-- Claim **C10 witness**: limit `-1` on the two-function fixture graph keeps
exactly the first (highest-ranked) of the two report lines. -/
theorem C10_witness :
    ((-1 : Int) < 0)
    ∧ triage_lines defaultCfg false (-1) nodesAB edgesAB
        = (triageFullLines defaultCfg false nodesAB edgesAB).take
            ((triageFullLines defaultCfg false nodesAB edgesAB).length
              - (-1 : Int).natAbs) :=
  ⟨by decide, C10_negative_limit_drops_tail defaultCfg false nodesAB edgesAB (-1) (by decide)⟩
